import Mathlib

/-!
Shallow embedding of the rtimer terminal pomodoro application
(src/main.rs) and verification of its specification claims.

Modelling conventions:
* `std::time::Duration` values are natural numbers of nanoseconds;
  `Duration::as_secs` is division by `10^9`, `saturating_sub` is
  truncated `Nat` subtraction.
* `Instant` values are natural numbers on a monotone nanosecond clock;
  `Instant::elapsed` is truncated subtraction from the current clock.
* Rust `f64` quantities that the program parses, compares and scales
  (durations in minutes, reminder hours) are modelled as exact
  rationals `ℚ`.
* Machine integers (`u32`, `u64`, `u8`) are `ℕ` with an explicit
  `% 2^w` at each increment that could overflow.
* Wall-clock inputs (`chrono::Local::now()` timestamps, weekday) and
  the monotone clock are threaded through an explicit `Env` record.
* Fire-and-forget side effects are recorded in the state:
  `notifications` logs the title of every notification sent, and
  `saved_configs` logs every configuration written to disk.
* Fallible operations return `Option`: `none` models a Rust panic
  (the `u32` remainder with divisor zero in `next_phase`).
-/

namespace RTimer

set_option maxRecDepth 10000

/-- One nanosecond-per-second scale factor. -/
def nsPerSec : ℕ := 1000000000

/-- The fixed tick interval of the control loop: 50 ms in nanoseconds. -/
def tickNs : ℕ := 50000000

/-- `Duration::as_secs`: whole seconds of a nanosecond count. -/
def asSecs (d : ℕ) : ℕ := d / nsPerSec

/-- `Duration::from_secs_f64`: seconds (exact rational) to nanoseconds,
rounded to the nearest nanosecond. -/
def fromSecsQ (q : ℚ) : ℕ := (Rat.floor (q * (nsPerSec : ℚ) + 1/2)).toNat

/-- The `Phase` enum of src/main.rs. -/
inductive Phase
  | Work
  | ShortBreak
  | LongBreak
  deriving DecidableEq, Repr

/-- The `View` enum of src/main.rs. -/
inductive View
  | Timer
  | Help
  | StatsSummary
  | StatsDetailed
  | StatsHistory
  | Settings
  | Notes
  deriving DecidableEq, Repr

/-- The `SettingsField` enum of src/main.rs. -/
inductive SettingsField
  | WorkDuration
  | RestDuration
  | LongBreakDuration
  | SessionsBeforeLongBreak
  | Theme
  | SoundEnabled
  | AutoStartNext
  | ExtendedBreakReminder
  deriving DecidableEq, Repr

/-- The `NotesMode` enum of src/main.rs. -/
inductive NotesMode
  | Viewing
  | Adding
  | Editing
  | ConfirmingDelete
  deriving DecidableEq, Repr

/-- The `Note` record of src/main.rs. -/
structure Note where
  timestamp : String
  content : String
  phase : String
  deriving DecidableEq, Repr

/-- The `SessionRecord` record of src/main.rs (`duration` is `u64`
whole minutes). -/
structure SessionRecord where
  timestamp : String
  phase_type : String
  duration : ℕ
  completed : Bool
  deriving DecidableEq, Repr

/-- The `Statistics` record of src/main.rs. -/
structure Statistics where
  total_sessions : ℕ
  total_work_time : ℕ
  total_break_time : ℕ
  sessions_today : ℕ
  last_session_date : String
  session_history : List SessionRecord
  weekly_sessions : List ℕ
  notes : List Note
  deriving DecidableEq, Repr

/-- The `Config` record of src/main.rs (durations in minutes). -/
structure Config where
  work_duration : ℚ
  rest_duration : ℚ
  long_break_duration : ℚ
  sessions_before_long_break : ℕ
  sound_enabled : Bool
  theme : String
  auto_start_next : Bool
  extended_break_reminder_hours : ℚ
  deriving DecidableEq, Repr

/-- `Config::default()` of src/main.rs. -/
def Config.default : Config where
  work_duration := 25
  rest_duration := 5
  long_break_duration := 15
  sessions_before_long_break := 4
  sound_enabled := true
  theme := "default"
  auto_start_next := true
  extended_break_reminder_hours := 2

/-- The `MergedSettings` record of src/main.rs. -/
structure MergedSettings where
  work_duration : ℚ
  rest_duration : ℚ
  long_break_duration : ℚ
  sessions_before_long_break : ℕ
  deriving DecidableEq, Repr

/-- The parsed CLI arguments (`Args` of src/main.rs): duration flags
already run through the duration parser, `sessions` is any `u32`. -/
structure Args where
  work : Option ℚ
  rest : Option ℚ
  long_break : Option ℚ
  sessions : Option ℕ
  theme : Option String
  no_sound : Bool
  resume : Bool
  deriving DecidableEq, Repr

/-- Ambient inputs the program reads from the outside world:
the current wall-clock timestamp string, the weekday index
(`num_days_from_monday`), and the monotone clock in nanoseconds. -/
structure Env where
  now_ts : String
  weekday : ℕ
  now_mono : ℕ
  deriving DecidableEq, Repr

/-- The `AppState` record of src/main.rs, plus the two side-effect
logs (`notifications`, `saved_configs`) that model the fire-and-forget
notification sends and the config writes.  The rendering-only `theme`
colour table is omitted (it carries no state the core reads). -/
structure AppState where
  time_remaining : ℕ
  paused : Bool
  session_count : ℕ
  phase : Phase
  work_duration : ℕ
  rest_duration : ℕ
  long_break_duration : ℕ
  sessions_before_long_break : ℕ
  stats : Statistics
  current_view : View
  sound_enabled : Bool
  animation_frame : ℕ
  minimized : Bool
  settings_selected_field : SettingsField
  settings_editing : Bool
  settings_input : String
  theme_name : String
  notes_mode : NotesMode
  notes_input : String
  note_scroll_offset : ℕ
  selected_note_index : Option ℕ
  needs_stats_save : Bool
  last_auto_save : ℕ
  auto_start_next : Bool
  extended_break_reminder_hours : ℚ
  last_extended_break_check : ℕ
  total_work_time_since_break : ℕ
  notifications : List String
  saved_configs : List Config
  deriving DecidableEq, Repr

/-- `AppState::total_duration`. -/
def total_duration (st : AppState) : ℕ :=
  match st.phase with
  | Phase.Work => st.work_duration
  | Phase.ShortBreak => st.rest_duration
  | Phase.LongBreak => st.long_break_duration

/-- The history label of a phase (the `phase_type` match inside
`record_session_completion`). -/
def phaseLabel : Phase → String
  | Phase.Work => "Work"
  | Phase.ShortBreak => "Short Break"
  | Phase.LongBreak => "Long Break"

/-- The snake-case phase tag (the `phase_str` match inside
`save_note`, also used by the timer-state snapshot). -/
def phaseKey : Phase → String
  | Phase.Work => "work"
  | Phase.ShortBreak => "short_break"
  | Phase.LongBreak => "long_break"

/-- `AppState::record_session_completion`: appends one session record
(completed iff fewer than 5 whole seconds remain), then evicts the
oldest entry if the history exceeds 100. -/
def record_session_completion (env : Env) (st : AppState) : AppState :=
  let phase_type : String := phaseLabel st.phase
  let duration := asSecs (total_duration st) / 60
  let completed := decide (asSecs st.time_remaining < 5)
  let history :=
    st.stats.session_history ++ [⟨env.now_ts, phase_type, duration, completed⟩]
  let history := if 100 < history.length then history.drop 1 else history
  { st with stats := { st.stats with session_history := history } }

/-- `AppState::update_weekly_stats`: bumps the current weekday slot,
guarded by a bounds check. -/
def update_weekly_stats (env : Env) (st : AppState) : AppState :=
  if env.weekday < st.stats.weekly_sessions.length then
    { st with stats :=
        { st.stats with weekly_sessions :=
            (st.stats.weekly_sessions.set env.weekday
              ((st.stats.weekly_sessions.getD env.weekday 0 + 1) % 2 ^ 32)) } }
  else st

/-- `AppState::next_phase`.  Returns `none` exactly where the Rust
code panics: the `u32` remainder `session_count % sessions_before_long_break`
with a zero divisor, evaluated only in the `Work` arm. -/
def next_phase (env : Env) (st0 : AppState) : Option AppState :=
  let st1 := record_session_completion env st0
  if st1.phase = Phase.Work then
    if st1.sessions_before_long_break = 0 then none
    else
      let st2 := update_weekly_stats env
        { st1 with stats :=
            { st1.stats with
                total_work_time :=
                  (st1.stats.total_work_time + asSecs st1.work_duration / 60) % 2 ^ 64
                total_sessions := (st1.stats.total_sessions + 1) % 2 ^ 32
                sessions_today := (st1.stats.sessions_today + 1) % 2 ^ 32 } }
      let st3 := { st2 with
          session_count := (st2.session_count + 1) % 2 ^ 32
          total_work_time_since_break :=
            st2.total_work_time_since_break + st2.work_duration }
      let st4 :=
        if st3.session_count % st3.sessions_before_long_break = 0 then
          { st3 with
              phase := Phase.LongBreak
              time_remaining := st3.long_break_duration
              notifications := st3.notifications ++ ["Long Break Time! 🌴"]
              total_work_time_since_break := 0 }
        else
          { st3 with
              phase := Phase.ShortBreak
              time_remaining := st3.rest_duration
              notifications := st3.notifications ++ ["Break Time! ☕"] }
      some { st4 with paused := !st4.auto_start_next, needs_stats_save := true }
  else
    let st2 := { st1 with stats :=
        { st1.stats with
            total_break_time :=
              (st1.stats.total_break_time + asSecs (total_duration st1) / 60) % 2 ^ 64 } }
    let st3 := { st2 with
        phase := Phase.Work
        time_remaining := st2.work_duration
        notifications := st2.notifications ++ ["Back to Work! 🎯"] }
    some { st3 with paused := !st3.auto_start_next, needs_stats_save := true }

/-- `AppState::check_extended_break_reminder`: throttled to once per
60 real seconds; past the throttle, fires a warning and zeroes the
accumulator when the accumulated hours reach the threshold. -/
def check_extended_break_reminder (env : Env) (st : AppState) : AppState :=
  if env.now_mono - st.last_extended_break_check < 60 * nsPerSec then st
  else
    let st1 := { st with last_extended_break_check := env.now_mono }
    let hours_worked : ℚ := (st1.total_work_time_since_break : ℚ) / (nsPerSec : ℚ) / 3600
    if st1.extended_break_reminder_hours ≤ hours_worked then
      { st1 with
          notifications := st1.notifications ++ ["⚠️  Extended Break Recommended"]
          total_work_time_since_break := 0 }
    else st1

/-- `AppState::toggle_pause`. -/
def toggle_pause (st : AppState) : AppState := { st with paused := !st.paused }

/-- `AppState::toggle_minimize`. -/
def toggle_minimize (st : AppState) : AppState := { st with minimized := !st.minimized }

/-- `AppState::reset_timer`. -/
def reset_timer (st : AppState) : AppState :=
  { st with time_remaining := total_duration st, paused := false }

/-- `AppState::open_notes`. -/
def open_notes (st : AppState) : AppState :=
  { st with
      current_view := View.Notes
      notes_mode := NotesMode.Viewing
      selected_note_index :=
        if st.stats.notes.isEmpty then none else some (st.stats.notes.length - 1) }

/-- `AppState::open_settings`. -/
def open_settings (st : AppState) : AppState :=
  { st with current_view := View.Settings }

/-- `update_timer` of src/main.rs: one control-loop tick.  `none`
models the panic propagated out of `next_phase`. -/
def update_timer (env : Env) (st : AppState) : Option AppState :=
  let bump := fun (s : AppState) => { s with animation_frame := (s.animation_frame + 1) % 20 }
  if st.paused = false ∧ 0 < st.time_remaining then
    let a := { st with time_remaining := st.time_remaining - tickNs }
    let b := if a.phase = Phase.Work ∧ a.paused = false
             then check_extended_break_reminder env a else a
    if asSecs b.time_remaining = 0 then
      match next_phase env b with
      | none => none
      | some c => some (bump c)
    else some (bump b)
  else some (bump st)

/-- Value of a list of ASCII digits read left to right. -/
def digitsToNat (l : List Char) : ℕ :=
  l.foldl (fun a c => 10 * a + (c.toNat - 48)) 0

/-- Character class accepted into the pending-number buffer of the
duration parser: ASCII digit or `.`. -/
def isNumChar (c : Char) : Bool := c.isDigit || c == '.'

/-- Rust `str::parse::<f64>` restricted to strings of digits and dots
(the only strings the duration parser and the mantissa splitter feed
it): succeeds iff there is at least one digit and at most one dot. -/
def parseDigitsDot (l : List Char) : Option ℚ :=
  if l.all isNumChar ∧ l.count '.' ≤ 1 ∧ l.any Char.isDigit then
    let intPart := l.takeWhile (fun c => c ≠ '.')
    let fracPart := (l.dropWhile (fun c => c ≠ '.')).drop 1
    some ((digitsToNat intPart : ℚ) + (digitsToNat fracPart : ℚ) / 10 ^ fracPart.length)
  else none

/-- Splits an optional leading sign; returns (negative?, rest). -/
def splitSign : List Char → Bool × List Char
  | '+' :: r => (false, r)
  | '-' :: r => (true, r)
  | l => (false, l)

/-- Exponent part of a Rust float literal (after the `e`/`E`). -/
def parseExpPart (l : List Char) : Option ℤ :=
  let p := splitSign l
  if p.2 ≠ [] ∧ p.2.all Char.isDigit then
    some ((if p.1 then -1 else 1) * (digitsToNat p.2 : ℤ))
  else none

/-- Rust `str::parse::<f64>` on arbitrary strings, valued in exact
rationals.  `inf`/`infinity`/`nan` parse successfully in Rust but
compare false against every bounded range the settings editor uses,
so they are modelled as `none` (same accept/reject outcome). -/
def parse_f64 (s : String) : Option ℚ :=
  let p := splitSign s.data
  let lower := p.2.map Char.toLower
  if lower = "inf".data ∨ lower = "infinity".data ∨ lower = "nan".data then none
  else
    let mantChars := p.2.takeWhile (fun c => c ≠ 'e' ∧ c ≠ 'E')
    let expChars := p.2.dropWhile (fun c => c ≠ 'e' ∧ c ≠ 'E')
    match parseDigitsDot mantChars, expChars with
    | some m, [] => some (if p.1 then -m else m)
    | some m, _ :: ec =>
        match parseExpPart ec with
        | some e => some ((if p.1 then -m else m) * (10 : ℚ) ^ e)
        | none => none
    | none, _ => none

/-- Rust `str::parse::<u32>`: optional `+`, non-empty digits, value
within `u32` range. -/
def parse_u32 (s : String) : Option ℕ :=
  let l := match s.data with
    | '+' :: r => r
    | l => l
  if l ≠ [] ∧ l.all Char.isDigit then
    let v := digitsToNat l
    if v < 2 ^ 32 then some v else none
  else none

/-- The pending-number / unit-flush loop of `parse_duration_arg`
(arguments: remaining characters, `current_num` buffer, running
total in minutes). -/
def parseLoop : List Char → List Char → ℚ → Except String ℚ
  | [], _, total =>
      if 0 < total then Except.ok total
      else Except.error "Invalid duration format. Use: 25m, 1h30m, 90m, 1.5h, 0.5m"
  | c :: rest, cur, total =>
      if isNumChar c then parseLoop rest (cur ++ [c]) total
      else if c = 'h' then
        match parseDigitsDot cur with
        | some hours => parseLoop rest [] (total + hours * 60)
        | none => Except.error "Invalid hour format"
      else if c = 'm' then
        match parseDigitsDot cur with
        | some mins => parseLoop rest [] (total + mins)
        | none => Except.error "Invalid minute format"
      else if c = 's' then
        match parseDigitsDot cur with
        | some secs => parseLoop rest [] (total + secs / 60)
        | none => Except.error "Invalid second format"
      else parseLoop rest cur total

/-- `parse_duration_arg` on a pre-trimmed, pre-lowercased character
list. -/
def parseDurationChars (l : List Char) : Except String ℚ := parseLoop l [] 0

/-- `parse_duration_arg` of src/main.rs. -/
def parse_duration_arg (s : String) : Except String ℚ :=
  parseDurationChars (s.trim.data.map Char.toLower)

/-- The configuration snapshot `AppState::save_config` writes. -/
def currentConfig (st : AppState) : Config where
  work_duration := (st.work_duration : ℚ) / (nsPerSec : ℚ) / 60
  rest_duration := (st.rest_duration : ℚ) / (nsPerSec : ℚ) / 60
  long_break_duration := (st.long_break_duration : ℚ) / (nsPerSec : ℚ) / 60
  sessions_before_long_break := st.sessions_before_long_break
  sound_enabled := st.sound_enabled
  theme := st.theme_name
  auto_start_next := st.auto_start_next
  extended_break_reminder_hours := st.extended_break_reminder_hours

/-- `AppState::save_config`: best-effort write of the current
configuration, modelled as appending the snapshot to the write log. -/
def app_save_config (st : AppState) : AppState :=
  { st with saved_configs := st.saved_configs ++ [currentConfig st] }

/-- `AppState::settings_next_field`. -/
def settings_next_field (st : AppState) : AppState :=
  { st with settings_selected_field :=
      match st.settings_selected_field with
      | SettingsField.WorkDuration => SettingsField.RestDuration
      | SettingsField.RestDuration => SettingsField.LongBreakDuration
      | SettingsField.LongBreakDuration => SettingsField.SessionsBeforeLongBreak
      | SettingsField.SessionsBeforeLongBreak => SettingsField.Theme
      | SettingsField.Theme => SettingsField.SoundEnabled
      | SettingsField.SoundEnabled => SettingsField.AutoStartNext
      | SettingsField.AutoStartNext => SettingsField.ExtendedBreakReminder
      | SettingsField.ExtendedBreakReminder => SettingsField.WorkDuration }

/-- `AppState::settings_prev_field`. -/
def settings_prev_field (st : AppState) : AppState :=
  { st with settings_selected_field :=
      match st.settings_selected_field with
      | SettingsField.WorkDuration => SettingsField.ExtendedBreakReminder
      | SettingsField.RestDuration => SettingsField.WorkDuration
      | SettingsField.LongBreakDuration => SettingsField.RestDuration
      | SettingsField.SessionsBeforeLongBreak => SettingsField.LongBreakDuration
      | SettingsField.Theme => SettingsField.SessionsBeforeLongBreak
      | SettingsField.SoundEnabled => SettingsField.Theme
      | SettingsField.AutoStartNext => SettingsField.SoundEnabled
      | SettingsField.ExtendedBreakReminder => SettingsField.AutoStartNext }

/-- Rust `format!("{:.p}", q)` for a non-negative rational, rounding
to the nearest at `p` decimal places. -/
def fmtFixed (q : ℚ) (places : ℕ) : String :=
  let scaled := (Rat.floor (q * 10 ^ places + 1/2)).toNat
  let ip := scaled / 10 ^ places
  let fp := scaled % 10 ^ places
  toString ip ++ "." ++
    String.mk (List.replicate (places - (toString fp).length) '0') ++ toString fp

/-- The seed string for a duration field's edit buffer: the minute
value formatted as an integer when it has no fractional part, else
with two decimal places. -/
def fmtMinutes (ns : ℕ) : String :=
  let mins : ℚ := (ns : ℚ) / (nsPerSec : ℚ) / 60
  if mins.den = 1 then toString mins.num.toNat else fmtFixed mins 2

/-- `AppState::settings_start_editing`: toggled/cycled fields return
early; numeric fields seed the edit buffer and enter editing mode. -/
def settings_start_editing (st : AppState) : AppState :=
  match st.settings_selected_field with
  | SettingsField.Theme | SettingsField.SoundEnabled | SettingsField.AutoStartNext => st
  | SettingsField.WorkDuration =>
      { st with settings_input := fmtMinutes st.work_duration, settings_editing := true }
  | SettingsField.RestDuration =>
      { st with settings_input := fmtMinutes st.rest_duration, settings_editing := true }
  | SettingsField.LongBreakDuration =>
      { st with settings_input := fmtMinutes st.long_break_duration, settings_editing := true }
  | SettingsField.SessionsBeforeLongBreak =>
      { st with settings_input := toString st.sessions_before_long_break
                settings_editing := true }
  | SettingsField.ExtendedBreakReminder =>
      { st with
          settings_input :=
            (if st.extended_break_reminder_hours.den = 1 then
              toString st.extended_break_reminder_hours.num.toNat
            else fmtFixed st.extended_break_reminder_hours 1)
          settings_editing := true }

/-- `AppState::settings_cancel_editing`. -/
def settings_cancel_editing (st : AppState) : AppState :=
  { st with settings_editing := false, settings_input := "" }

/-- `AppState::settings_apply_change`: parses the edit buffer, applies
it only when inside the field's valid range (persisting the new
configuration), and in every case leaves editing mode discarding the
buffer. -/
def settings_apply_change (st : AppState) : AppState :=
  let st1 :=
    match st.settings_selected_field with
    | SettingsField.WorkDuration =>
        match parse_f64 st.settings_input with
        | some mins =>
            if 0 < mins ∧ mins ≤ 240 then
              app_save_config { st with work_duration := fromSecsQ (mins * 60) }
            else st
        | none => st
    | SettingsField.RestDuration =>
        match parse_f64 st.settings_input with
        | some mins =>
            if 0 < mins ∧ mins ≤ 60 then
              app_save_config { st with rest_duration := fromSecsQ (mins * 60) }
            else st
        | none => st
    | SettingsField.LongBreakDuration =>
        match parse_f64 st.settings_input with
        | some mins =>
            if 0 < mins ∧ mins ≤ 120 then
              app_save_config { st with long_break_duration := fromSecsQ (mins * 60) }
            else st
        | none => st
    | SettingsField.SessionsBeforeLongBreak =>
        match parse_u32 st.settings_input with
        | some sessions =>
            if 0 < sessions ∧ sessions ≤ 10 then
              app_save_config { st with sessions_before_long_break := sessions }
            else st
        | none => st
    | SettingsField.ExtendedBreakReminder =>
        match parse_f64 st.settings_input with
        | some hours =>
            if 1/2 ≤ hours ∧ hours ≤ 8 then
              app_save_config { st with extended_break_reminder_hours := hours }
            else st
        | none => st
    | _ => st
  settings_cancel_editing st1

/-- `AppState::settings_toggle_boolean`. -/
def settings_toggle_boolean (st : AppState) : AppState :=
  match st.settings_selected_field with
  | SettingsField.SoundEnabled =>
      app_save_config { st with sound_enabled := !st.sound_enabled }
  | SettingsField.AutoStartNext =>
      app_save_config { st with auto_start_next := !st.auto_start_next }
  | _ => st

/-- The fixed ordered theme list of `settings_cycle_theme`. -/
def themes : List String := ["default", "nord", "dracula", "gruvbox", "solarized"]

/-- `AppState::settings_cycle_theme`. -/
def settings_cycle_theme (forward : Bool) (st : AppState) : AppState :=
  if st.settings_selected_field = SettingsField.Theme then
    let current_idx := (themes.findIdx? (fun t => t == st.theme_name)).getD 0
    let new_idx :=
      if forward then (current_idx + 1) % themes.length
      else if current_idx = 0 then themes.length - 1 else current_idx - 1
    app_save_config { st with theme_name := themes.getD new_idx "" }
  else st

/-- `AppState::start_note`. -/
def start_note (st : AppState) : AppState :=
  { st with notes_mode := NotesMode.Adding, notes_input := "" }

/-- `AppState::save_note`: commits the buffer as a new note only when
non-empty after trimming, then returns to viewing mode. -/
def save_note (env : Env) (st : AppState) : AppState :=
  let st1 :=
    if st.notes_input.trim ≠ "" then
      let phase_str : String := phaseKey st.phase
      let notes := st.stats.notes ++ [⟨env.now_ts, st.notes_input.trim, phase_str⟩]
      { st with
          stats := { st.stats with notes := notes }
          needs_stats_save := true
          selected_note_index := some (notes.length - 1) }
    else st
  { st1 with notes_mode := NotesMode.Viewing, notes_input := "" }

/-- `AppState::cancel_note`. -/
def cancel_note (st : AppState) : AppState :=
  { st with notes_mode := NotesMode.Viewing, notes_input := "" }

/-- `AppState::start_edit_note`. -/
def start_edit_note (st : AppState) : AppState :=
  match st.selected_note_index with
  | some idx =>
      if idx < st.stats.notes.length then
        { st with
            notes_input := (st.stats.notes.getD idx ⟨"", "", ""⟩).content
            notes_mode := NotesMode.Editing }
      else st
  | none => st

/-- `AppState::save_edited_note`. -/
def save_edited_note (st : AppState) : AppState :=
  let st1 :=
    match st.selected_note_index with
    | some idx =>
        if idx < st.stats.notes.length ∧ st.notes_input.trim ≠ "" then
          { st with
              stats := { st.stats with notes :=
                  (st.stats.notes.set idx
                    { st.stats.notes.getD idx ⟨"", "", ""⟩ with
                        content := st.notes_input.trim }) }
              needs_stats_save := true }
        else st
    | none => st
  { st1 with notes_mode := NotesMode.Viewing, notes_input := "" }

/-- `AppState::confirm_delete_note`. -/
def confirm_delete_note (st : AppState) : AppState :=
  if st.selected_note_index.isSome then
    { st with notes_mode := NotesMode.ConfirmingDelete }
  else st

/-- `AppState::delete_selected_note`. -/
def delete_selected_note (st : AppState) : AppState :=
  let st1 :=
    match st.selected_note_index with
    | some idx =>
        if idx < st.stats.notes.length then
          let notes := st.stats.notes.eraseIdx idx
          let st2 := { st with
              stats := { st.stats with notes := notes }
              needs_stats_save := true }
          if notes.isEmpty then { st2 with selected_note_index := none }
          else if notes.length ≤ idx then
            { st2 with selected_note_index := some (notes.length - 1) }
          else st2
        else st
    | none => st
  { st1 with notes_mode := NotesMode.Viewing }

/-- `AppState::cancel_delete`. -/
def cancel_delete (st : AppState) : AppState :=
  { st with notes_mode := NotesMode.Viewing }

/-- `AppState::select_next_note`. -/
def select_next_note (st : AppState) : AppState :=
  if st.stats.notes.isEmpty then st
  else
    let idx :=
      match st.selected_note_index with
      | some idx => min (idx + 1) (st.stats.notes.length - 1)
      | none => 0
    { st with selected_note_index := some idx }

/-- `AppState::select_prev_note`. -/
def select_prev_note (st : AppState) : AppState :=
  if st.stats.notes.isEmpty then st
  else
    let idx :=
      match st.selected_note_index with
      | some idx => idx - 1
      | none => st.stats.notes.length - 1
    { st with selected_note_index := some idx }

/-- `AppState::scroll_notes`. -/
def scroll_notes (delta : ℤ) (st : AppState) : AppState :=
  let max_notes := st.stats.notes.length
  if 10 < max_notes then
    { st with note_scroll_offset :=
        (min (max ((st.note_scroll_offset : ℤ) + delta) 0) ((max_notes : ℤ) - 10)).toNat }
  else st

/-- The crossterm key codes the program matches on. -/
inductive KeyCode
  | Char (c : Char)
  | Backspace
  | Enter
  | Esc
  | Down
  | Up
  | Left
  | Right
  | PageUp
  | PageDown
  | Tab
  deriving DecidableEq, Repr

/-- A key event: code plus whether CONTROL is held. -/
structure KeyEvent where
  code : KeyCode
  ctrl : Bool
  deriving DecidableEq, Repr

/-- `handle_key_event` of src/main.rs: routes a key through the
input-mode sub-machines in priority order, then view-level handlers,
then global keys.  The returned `Bool` is the quit signal; `none`
models the panic reachable through `next_phase`. -/
def handle_key_event (env : Env) (key : KeyEvent) (st : AppState) :
    Option (AppState × Bool) :=
  if st.notes_mode = NotesMode.Adding ∨ st.notes_mode = NotesMode.Editing then
    match key.code with
    | KeyCode.Char c => some ({ st with notes_input := st.notes_input.push c }, false)
    | KeyCode.Backspace => some ({ st with notes_input := st.notes_input.dropRight 1 }, false)
    | KeyCode.Enter =>
        if st.notes_mode = NotesMode.Editing then some (save_edited_note st, false)
        else some (save_note env st, false)
    | KeyCode.Esc => some (cancel_note st, false)
    | _ => some (st, false)
  else if st.notes_mode = NotesMode.ConfirmingDelete then
    match key.code with
    | KeyCode.Char 'y' | KeyCode.Char 'Y' => some (delete_selected_note st, false)
    | KeyCode.Char 'n' | KeyCode.Char 'N' | KeyCode.Esc => some (cancel_delete st, false)
    | _ => some (st, false)
  else if st.current_view = View.Notes then
    match key.code with
    | KeyCode.Esc | KeyCode.Char 'q' | KeyCode.Char 't' =>
        some ({ st with current_view := View.Timer, notes_mode := NotesMode.Viewing }, false)
    | KeyCode.Char 'a' | KeyCode.Char 'n' => some (start_note st, false)
    | KeyCode.Char 'e' => some (start_edit_note st, false)
    | KeyCode.Char 'd' => some (confirm_delete_note st, false)
    | KeyCode.Down | KeyCode.Char 'j' => some (select_next_note st, false)
    | KeyCode.Up | KeyCode.Char 'k' => some (select_prev_note st, false)
    | KeyCode.PageUp => some (scroll_notes (-5) st, false)
    | KeyCode.PageDown => some (scroll_notes 5 st, false)
    | _ => some (st, false)
  else if st.settings_editing then
    match key.code with
    | KeyCode.Char c => some ({ st with settings_input := st.settings_input.push c }, false)
    | KeyCode.Backspace =>
        some ({ st with settings_input := st.settings_input.dropRight 1 }, false)
    | KeyCode.Enter => some (settings_apply_change st, false)
    | KeyCode.Esc => some (settings_cancel_editing st, false)
    | _ => some (st, false)
  else if st.current_view = View.Settings then
    match key.code with
    | KeyCode.Esc | KeyCode.Char 'q' | KeyCode.Char 'c' =>
        some ({ st with current_view := View.Timer }, false)
    | KeyCode.Down | KeyCode.Char 'j' => some (settings_next_field st, false)
    | KeyCode.Up | KeyCode.Char 'k' => some (settings_prev_field st, false)
    | KeyCode.Enter | KeyCode.Char 'e' => some (settings_start_editing st, false)
    | KeyCode.Char ' ' => some (settings_toggle_boolean st, false)
    | KeyCode.Left | KeyCode.Char 'h' =>
        some ((if st.settings_selected_field = SettingsField.Theme then
          settings_cycle_theme false st else st), false)
    | KeyCode.Right | KeyCode.Char 'l' =>
        some ((if st.settings_selected_field = SettingsField.Theme then
          settings_cycle_theme true st else st), false)
    | _ => some (st, false)
  else if key.code = KeyCode.Char 'q' ∨ key.code = KeyCode.Esc then some (st, true)
  else if key.code = KeyCode.Char 'c' ∧ key.ctrl then some (st, true)
  else if key.code = KeyCode.Char 'm' ∨ key.code = KeyCode.Char 'M' then
    some (toggle_minimize st, false)
  else if st.minimized then some (st, false)
  else
    match key.code with
    | KeyCode.Char ' ' => some (toggle_pause st, false)
    | KeyCode.Char 'r' => some (reset_timer st, false)
    | KeyCode.Char 'n' =>
        match next_phase env st with
        | some st1 => some (st1, false)
        | none => none
    | KeyCode.Char 'd' => some (open_settings st, false)
    | KeyCode.Char 't' => some (open_notes st, false)
    | KeyCode.Char 'h' | KeyCode.Char '?' =>
        some ({ st with current_view :=
            (if st.current_view = View.Help then View.Timer else View.Help) }, false)
    | KeyCode.Char 's' =>
        some ({ st with current_view :=
            (match st.current_view with
              | View.Timer => View.StatsSummary
              | _ => View.Timer) }, false)
    | KeyCode.Tab =>
        some ({ st with current_view :=
            (match st.current_view with
              | View.StatsSummary => View.StatsDetailed
              | View.StatsDetailed => View.StatsHistory
              | View.StatsHistory => View.StatsSummary
              | v => v) }, false)
    | KeyCode.Char 'e' => some (st, false)
    | _ => some (st, false)

/-- `load_config` of src/main.rs.  The file-system read is an input:
`none` = the file cannot be read (defaults are created and written),
`some none` = read succeeded but JSON deserialization failed
(`unwrap_or_default`), `some (some c)` = deserialized configuration,
used as-is with no further validation. -/
def load_config : Option (Option Config) → Config
  | some (some c) => c
  | some none => Config.default
  | none => Config.default

/-- The CLI-override block at the top of `main`: each provided
argument replaces the corresponding configuration value unchecked. -/
def apply_args (args : Args) (cfg : Config) : Config :=
  let cfg := match args.work with
    | some w => { cfg with work_duration := w }
    | none => cfg
  let cfg := match args.rest with
    | some r => { cfg with rest_duration := r }
    | none => cfg
  let cfg := match args.long_break with
    | some lb => { cfg with long_break_duration := lb }
    | none => cfg
  let cfg := match args.sessions with
    | some sessions => { cfg with sessions_before_long_break := sessions }
    | none => cfg
  let cfg := match args.theme with
    | some t => { cfg with theme := t }
    | none => cfg
  if args.no_sound then { cfg with sound_enabled := false } else cfg

/-- The `MergedSettings` construction in `main`. -/
def mergedSettings (cfg : Config) : MergedSettings where
  work_duration := cfg.work_duration
  rest_duration := cfg.rest_duration
  long_break_duration := cfg.long_break_duration
  sessions_before_long_break := cfg.sessions_before_long_break

/-- `create_app_state_from_args` of src/main.rs. -/
def create_app_state_from_args (env : Env) (settings : MergedSettings)
    (stats : Statistics) (sound_enabled : Bool) (theme_name : String)
    (auto_start_next : Bool) (extended_break_reminder_hours : ℚ) : AppState where
  time_remaining := fromSecsQ (settings.work_duration * 60)
  paused := false
  session_count := 1
  phase := Phase.Work
  work_duration := fromSecsQ (settings.work_duration * 60)
  rest_duration := fromSecsQ (settings.rest_duration * 60)
  long_break_duration := fromSecsQ (settings.long_break_duration * 60)
  sessions_before_long_break := settings.sessions_before_long_break
  stats := stats
  current_view := View.Timer
  sound_enabled := sound_enabled
  animation_frame := 0
  minimized := false
  settings_selected_field := SettingsField.WorkDuration
  settings_editing := false
  settings_input := ""
  theme_name := theme_name
  notes_mode := NotesMode.Viewing
  notes_input := ""
  note_scroll_offset := 0
  selected_note_index :=
    if stats.notes.isEmpty then none else some (stats.notes.length - 1)
  needs_stats_save := false
  last_auto_save := env.now_mono
  auto_start_next := auto_start_next
  extended_break_reminder_hours := extended_break_reminder_hours
  last_extended_break_check := env.now_mono
  total_work_time_since_break := 0
  notifications := []
  saved_configs := []

/-! ### Concrete fixtures used by witnesses and counterexamples -/

/-- A fixed ambient environment. -/
def env0 : Env := ⟨"2026-10-12T09:00:00+02:00", 2, 1000000000000⟩

/-- A fresh statistics ledger (the `Statistics::default()` shape with
a fixed date). -/
def stats0 : Statistics := ⟨0, 0, 0, 0, "2026-10-12", [], [0, 0, 0, 0, 0, 0, 0], []⟩

/-- CLI invocation with no flags. -/
def argsNone : Args := ⟨none, none, none, none, none, false, false⟩

/-- The startup state of `rtimer` with no CLI flags and no config
file on disk: built-in defaults throughout (work 25 min, rest 5,
long break 15, 4 sessions before a long break, session_count 1,
phase Work). -/
def initApp : AppState :=
  let cfg := apply_args argsNone (load_config none)
  create_app_state_from_args env0 (mergedSettings cfg) stats0 cfg.sound_enabled
    cfg.theme cfg.auto_start_next cfg.extended_break_reminder_hours

/-- Iterated phase completion: `phaseIter env st n` is the state after
`n` successive `next_phase` calls. -/
def phaseIter (env : Env) (st : AppState) : ℕ → Option AppState
  | 0 => some st
  | n + 1 => (phaseIter env st n).bind (next_phase env)

/-- CLI invocation `--sessions 0`. -/
def argsSessions0 : Args := ⟨none, none, none, some 0, none, false, false⟩

/-- The startup state produced by `rtimer --sessions 0` (no config
file on disk): `sessions_before_long_break = 0`. -/
def appSessions0 : AppState :=
  let cfg := apply_args argsSessions0 (load_config none)
  create_app_state_from_args env0 (mergedSettings cfg) stats0 cfg.sound_enabled
    cfg.theme cfg.auto_start_next cfg.extended_break_reminder_hours

/-- A syntactically well-formed config document with out-of-range
values: negative work duration and zero sessions-before-long-break. -/
def badConfig : Config :=
  { Config.default with work_duration := -5, sessions_before_long_break := 0 }

/-- Startup state whose configured work duration is a fractional
0.5 minutes (30 s), with the countdown at zero. -/
def halfMinuteApp : AppState :=
  { initApp with work_duration := fromSecsQ (1 / 2 * 60), time_remaining := 0 }

/-- A short-break state with exactly one second remaining. -/
def oneSecApp : AppState :=
  { initApp with phase := Phase.ShortBreak, time_remaining := nsPerSec }

/-- Settings editor on the work-duration field with `"999"` typed
into the edit buffer. -/
def editApp : AppState :=
  { initApp with
      settings_selected_field := SettingsField.WorkDuration
      settings_editing := true
      settings_input := "999" }

/-- The default startup state with the minimized flag set. -/
def minApp : AppState := { initApp with minimized := true }

/-- A `<number><unit>` segment of the duration mini-grammar. -/
structure DurSegment where
  num : List Char
  unit : Char
  deriving DecidableEq, Repr

/-- A valid pending number: only digits and dots, at most one dot, at
least one digit (exactly the strings Rust's `f64` parser accepts from
the duration loop's buffer alphabet). -/
def validNum (l : List Char) : Prop :=
  l.all isNumChar = true ∧ l.count '.' ≤ 1 ∧ l.any Char.isDigit = true

instance (l : List Char) : Decidable (validNum l) := by
  unfold validNum; infer_instance

/-- A valid duration segment: valid number and a unit in {h, m, s}. -/
def validSeg (seg : DurSegment) : Prop :=
  validNum seg.num ∧ (seg.unit = 'h' ∨ seg.unit = 'm' ∨ seg.unit = 's')

instance (seg : DurSegment) : Decidable (validSeg seg) := by
  unfold validSeg; infer_instance

/-- The numeric value of a valid pending number. -/
def numValue (l : List Char) : ℚ :=
  (digitsToNat (l.takeWhile (fun c => c ≠ '.')) : ℚ) +
    (digitsToNat ((l.dropWhile (fun c => c ≠ '.')).drop 1) : ℚ) /
      10 ^ ((l.dropWhile (fun c => c ≠ '.')).drop 1).length

/-- A segment's contribution in minutes: h×60, m×1, s÷60. -/
def segValue (seg : DurSegment) : ℚ :=
  if seg.unit = 'h' then numValue seg.num * 60
  else if seg.unit = 's' then numValue seg.num / 60
  else numValue seg.num

/-- Total minutes of a segment list. -/
def segsValue (segs : List DurSegment) : ℚ := (segs.map segValue).sum

/-- The character rendering of a segment list. -/
def renderSegs (segs : List DurSegment) : List Char :=
  segs.foldr (fun seg acc => seg.num ++ [seg.unit] ++ acc) []

/-- The error message the duration parser emits at unit `u` when the
pending buffer is not a valid number. -/
def unitErr (u : Char) : String :=
  if u = 'h' then "Invalid hour format"
  else if u = 'm' then "Invalid minute format"
  else "Invalid second format"

/-- The notes-editor/view coupling invariant: whenever the notes
editor is in a text-entry or confirmation mode, the Notes view is the
active view. -/
def notesInvariant (st : AppState) : Prop :=
  st.notes_mode ≠ NotesMode.Viewing → st.current_view = View.Notes

/-! ### Helper lemmas -/

theorem record_phase (env : Env) (st : AppState) :
    (record_session_completion env st).phase = st.phase := rfl

theorem record_count (env : Env) (st : AppState) :
    (record_session_completion env st).session_count = st.session_count := rfl

theorem record_sblb (env : Env) (st : AppState) :
    (record_session_completion env st).sessions_before_long_break =
      st.sessions_before_long_break := rfl

theorem record_twsb (env : Env) (st : AppState) :
    (record_session_completion env st).total_work_time_since_break =
      st.total_work_time_since_break := rfl

theorem record_work_duration (env : Env) (st : AppState) :
    (record_session_completion env st).work_duration = st.work_duration := rfl

theorem record_rest_duration (env : Env) (st : AppState) :
    (record_session_completion env st).rest_duration = st.rest_duration := rfl

theorem record_long_duration (env : Env) (st : AppState) :
    (record_session_completion env st).long_break_duration = st.long_break_duration := rfl

theorem record_notes_mode (env : Env) (st : AppState) :
    (record_session_completion env st).notes_mode = st.notes_mode := rfl

theorem record_view (env : Env) (st : AppState) :
    (record_session_completion env st).current_view = st.current_view := rfl

theorem uws_count (env : Env) (st : AppState) :
    (update_weekly_stats env st).session_count = st.session_count := by
  unfold update_weekly_stats; split <;> rfl

theorem uws_sblb (env : Env) (st : AppState) :
    (update_weekly_stats env st).sessions_before_long_break =
      st.sessions_before_long_break := by
  unfold update_weekly_stats; split <;> rfl

theorem uws_twsb (env : Env) (st : AppState) :
    (update_weekly_stats env st).total_work_time_since_break =
      st.total_work_time_since_break := by
  unfold update_weekly_stats; split <;> rfl

theorem uws_work_duration (env : Env) (st : AppState) :
    (update_weekly_stats env st).work_duration = st.work_duration := by
  unfold update_weekly_stats; split <;> rfl

theorem uws_rest_duration (env : Env) (st : AppState) :
    (update_weekly_stats env st).rest_duration = st.rest_duration := by
  unfold update_weekly_stats; split <;> rfl

theorem uws_long_duration (env : Env) (st : AppState) :
    (update_weekly_stats env st).long_break_duration = st.long_break_duration := by
  unfold update_weekly_stats; split <;> rfl

theorem uws_notes_mode (env : Env) (st : AppState) :
    (update_weekly_stats env st).notes_mode = st.notes_mode := by
  unfold update_weekly_stats; split <;> rfl

theorem uws_view (env : Env) (st : AppState) :
    (update_weekly_stats env st).current_view = st.current_view := by
  unfold update_weekly_stats; split <;> rfl

/-- `next_phase` on a Work state with a non-zero session target:
characterises the successor state. -/
theorem next_phase_work (env : Env) (st : AppState) (hp : st.phase = Phase.Work)
    (hs : st.sessions_before_long_break ≠ 0) :
    ∃ st', next_phase env st = some st' ∧
      st'.session_count = (st.session_count + 1) % 2 ^ 32 ∧
      st'.sessions_before_long_break = st.sessions_before_long_break ∧
      st'.phase = (if (st.session_count + 1) % 2 ^ 32 % st.sessions_before_long_break = 0
        then Phase.LongBreak else Phase.ShortBreak) ∧
      st'.total_work_time_since_break =
        (if (st.session_count + 1) % 2 ^ 32 % st.sessions_before_long_break = 0
         then 0 else st.total_work_time_since_break + st.work_duration) ∧
      st'.work_duration = st.work_duration ∧
      st'.rest_duration = st.rest_duration ∧
      st'.long_break_duration = st.long_break_duration ∧
      st'.notes_mode = st.notes_mode ∧
      st'.current_view = st.current_view := by
  unfold next_phase
  simp only [record_phase, hp, if_true, record_sblb, if_neg hs, record_count,
    record_twsb, uws_count, uws_sblb, uws_twsb, uws_work_duration,
    uws_rest_duration, uws_long_duration, uws_notes_mode, uws_view]
  split <;>
    refine ⟨_, rfl, ?_, ?_, ?_, ?_, ?_, ?_, ?_, ?_, ?_⟩ <;>
      simp [record_count, record_sblb, record_phase, record_twsb,
        record_work_duration, record_rest_duration, record_long_duration,
        record_notes_mode, record_view, uws_count, uws_sblb, uws_twsb,
        uws_work_duration, uws_rest_duration, uws_long_duration,
        uws_notes_mode, uws_view]

/-- `next_phase` on a break state: back to Work, session counter
untouched. -/
theorem next_phase_break (env : Env) (st : AppState) (hp : st.phase ≠ Phase.Work) :
    ∃ st', next_phase env st = some st' ∧
      st'.phase = Phase.Work ∧
      st'.session_count = st.session_count ∧
      st'.sessions_before_long_break = st.sessions_before_long_break ∧
      st'.total_work_time_since_break = st.total_work_time_since_break ∧
      st'.work_duration = st.work_duration ∧
      st'.rest_duration = st.rest_duration ∧
      st'.long_break_duration = st.long_break_duration ∧
      st'.notes_mode = st.notes_mode ∧
      st'.current_view = st.current_view ∧
      st'.time_remaining = st.work_duration := by
  unfold next_phase
  simp only [record_phase, if_neg hp]
  exact ⟨_, rfl, rfl, rfl, rfl, rfl, rfl, rfl, rfl, rfl, rfl, rfl⟩

theorem check_phase (env : Env) (st : AppState) :
    (check_extended_break_reminder env st).phase = st.phase := by
  unfold check_extended_break_reminder
  split
  · rfl
  · dsimp only
    split <;> rfl

theorem check_time_remaining (env : Env) (st : AppState) :
    (check_extended_break_reminder env st).time_remaining = st.time_remaining := by
  unfold check_extended_break_reminder
  split
  · rfl
  · dsimp only
    split <;> rfl

theorem check_paused (env : Env) (st : AppState) :
    (check_extended_break_reminder env st).paused = st.paused := by
  unfold check_extended_break_reminder
  split
  · rfl
  · dsimp only
    split <;> rfl

theorem check_sblb (env : Env) (st : AppState) :
    (check_extended_break_reminder env st).sessions_before_long_break =
      st.sessions_before_long_break := by
  unfold check_extended_break_reminder
  split
  · rfl
  · dsimp only
    split <;> rfl

/-- The reminder check inside its 60-second throttle window is a
no-op. -/
theorem check_throttled (env : Env) (st : AppState)
    (h : env.now_mono - st.last_extended_break_check < 60 * nsPerSec) :
    check_extended_break_reminder env st = st := by
  unfold check_extended_break_reminder
  rw [if_pos h]

/-- Past the throttle, with accumulated hours at or above the
threshold: warning notification fired, accumulator reset. -/
theorem check_fires (env : Env) (st : AppState)
    (h : ¬ env.now_mono - st.last_extended_break_check < 60 * nsPerSec)
    (ht : st.extended_break_reminder_hours ≤
      (st.total_work_time_since_break : ℚ) / (nsPerSec : ℚ) / 3600) :
    (check_extended_break_reminder env st).total_work_time_since_break = 0 ∧
    (check_extended_break_reminder env st).notifications =
      st.notifications ++ ["⚠️  Extended Break Recommended"] ∧
    (check_extended_break_reminder env st).last_extended_break_check = env.now_mono := by
  unfold check_extended_break_reminder
  rw [if_neg h]
  dsimp only
  rw [if_pos ht]
  exact ⟨rfl, rfl, rfl⟩

/-- Past the throttle, with accumulated hours below the threshold:
the accumulator and notification log are untouched. -/
theorem check_below (env : Env) (st : AppState)
    (h : ¬ env.now_mono - st.last_extended_break_check < 60 * nsPerSec)
    (ht : ¬ st.extended_break_reminder_hours ≤
      (st.total_work_time_since_break : ℚ) / (nsPerSec : ℚ) / 3600) :
    (check_extended_break_reminder env st).total_work_time_since_break =
      st.total_work_time_since_break ∧
    (check_extended_break_reminder env st).notifications = st.notifications ∧
    (check_extended_break_reminder env st).last_extended_break_check = env.now_mono := by
  unfold check_extended_break_reminder
  rw [if_neg h]
  dsimp only
  rw [if_neg ht]
  exact ⟨rfl, rfl, rfl⟩

theorem asSecs_eq_zero (r : ℕ) : asSecs r = 0 ↔ r < nsPerSec := by
  unfold asSecs
  exact Nat.div_eq_zero_iff (by norm_num [nsPerSec])

theorem asSecs_lt_five (r : ℕ) : asSecs r < 5 ↔ r < 5 * nsPerSec := by
  unfold asSecs
  exact Nat.div_lt_iff_lt_mul (by norm_num [nsPerSec])

/-- Invariant of the completion cycle from the default start state:
after `2*k` completions the engine is in Work with
`session_count = (k+1) % 2^32` and the session target still 4. -/
theorem phaseIter_even (k : ℕ) :
    ∃ st, phaseIter env0 initApp (2 * k) = some st ∧
      st.phase = Phase.Work ∧
      st.session_count = (k + 1) % 2 ^ 32 ∧
      st.sessions_before_long_break = 4 := by
  induction k with
  | zero => exact ⟨initApp, rfl, rfl, rfl, rfl⟩
  | succ k ih =>
      obtain ⟨st, hiter, hphase, hcount, hs⟩ := ih
      have hs0 : st.sessions_before_long_break ≠ 0 := by rw [hs]; norm_num
      obtain ⟨stB, hnext, hBcount, hBsblb, hBphase, -, -, -, -, -, -⟩ :=
        next_phase_work env0 st hphase hs0
      have hBnotwork : stB.phase ≠ Phase.Work := by
        rw [hBphase]; split <;> simp
      obtain ⟨stW, hnext2, hWphase, hWcount, hWsblb, -, -, -, -, -, -, -⟩ :=
        next_phase_break env0 stB hBnotwork
      refine ⟨stW, ?_, hWphase, ?_, ?_⟩
      · have h2 : 2 * (k + 1) = 2 * k + 1 + 1 := by ring
        rw [h2]
        simp [phaseIter, hiter, hnext, hnext2]
      · rw [hWcount, hBcount, hcount]
        have hp : (2 : ℕ) ^ 32 = 4294967296 := by norm_num
        rw [hp]
        omega
      · rw [hWsblb, hBsblb, hs]

/-- C1 counterexample: from the default start (session_count = 1,
sessions_before_long_break = 4), the break entered after the THIRD
completed Work session — reached after 5 phase completions — is
already the LongBreak, not the ShortBreak the claimed order
ShortBreak, ShortBreak, ShortBreak, LongBreak requires. -/
theorem C1_counterexample :
    (phaseIter env0 initApp 5).map (fun st => st.phase) = some Phase.LongBreak ∧
    Phase.LongBreak ≠ Phase.ShortBreak := by
  exact ⟨by with_unfolding_all decide, by decide⟩

/-- C1 (amended): starting from the initial state (phase = Work,
session_count = 1) with sessions_before_long_break = 4, completing
Work phases sequentially yields the break order ShortBreak,
ShortBreak, LongBreak, then a LongBreak every 4th break thereafter:
the break after the (k+1)-st completed Work session is a LongBreak
iff (k+2) % 4 == 0 (i.e. after the 3rd, 7th, 11th, … sessions),
because session_count is advanced by 1 before the
`session_count % sessions_before_long_break == 0` test; the counter
advances only when leaving Work, and leaving any break returns to
Work without touching it. -/
theorem C1_theorem (k : ℕ) :
    ∃ stW stB, phaseIter env0 initApp (2 * k) = some stW ∧
      stW.phase = Phase.Work ∧
      stW.session_count = (k + 1) % 2 ^ 32 ∧
      next_phase env0 stW = some stB ∧
      stB.session_count = (k + 2) % 2 ^ 32 ∧
      stB.phase = (if (k + 2) % 4 = 0 then Phase.LongBreak else Phase.ShortBreak) ∧
      ∀ stW2, next_phase env0 stB = some stW2 →
        stW2.phase = Phase.Work ∧ stW2.session_count = stB.session_count := by
  obtain ⟨st, hiter, hphase, hcount, hs⟩ := phaseIter_even k
  have hs0 : st.sessions_before_long_break ≠ 0 := by rw [hs]; norm_num
  obtain ⟨stB, hnext, hBcount, hBsblb, hBphase, -, -, -, -, -, -⟩ :=
    next_phase_work env0 st hphase hs0
  have hmod : (st.session_count + 1) % 2 ^ 32 = (k + 2) % 2 ^ 32 := by
    rw [hcount]
    have hp : (2 : ℕ) ^ 32 = 4294967296 := by norm_num
    rw [hp]
    omega
  have hmod4 : (st.session_count + 1) % 2 ^ 32 % st.sessions_before_long_break
      = (k + 2) % 4 := by
    rw [hs, hmod]
    exact Nat.mod_mod_of_dvd _ (by norm_num)
  refine ⟨st, stB, hiter, hphase, hcount, hnext, ?_, ?_, ?_⟩
  · rw [hBcount, hmod]
  · rw [hBphase, hmod4]
  · intro stW2 h2
    have hBnotwork : stB.phase ≠ Phase.Work := by
      rw [hBphase, hmod4]; split <;> simp
    obtain ⟨stW', hnext2, hWphase, hWcount, -, -, -, -, -, -, -, -⟩ :=
      next_phase_break env0 stB hBnotwork
    rw [hnext2] at h2
    obtain rfl : stW' = stW2 := Option.some.inj h2
    exact ⟨hWphase, hWcount⟩

/-- C2 counterexample: one unpaused tick in the Work phase (the
default start state) leaves `total_work_time_since_break` at 0 —
it does NOT grow by the elapsed 50 ms tick interval as the claim
states; the accumulator only moves at phase completions. -/
theorem C2_counterexample :
    initApp.phase = Phase.Work ∧ initApp.paused = false ∧
    (update_timer env0 initApp).map (fun st => st.total_work_time_since_break) =
      some 0 ∧
    (0 : ℕ) ≠ tickNs := by
  exact ⟨rfl, rfl, by with_unfolding_all decide, by decide⟩

/-- C2 (amended): `work_time_since_break` grows by the full configured
work duration when a Work phase completes (not per tick), is reset to
zero exactly when a Long Break begins, and the reminder check —
skipped entirely within 60 real seconds of the previous check — fires
a warning notification and resets the accumulator to zero once the
accumulated hours reach the configured threshold, leaving it (and the
notification log) untouched below the threshold. -/
theorem C2_theorem :
    (∀ env st, st.phase = Phase.Work → st.sessions_before_long_break ≠ 0 →
      ∃ st', next_phase env st = some st' ∧
        st'.total_work_time_since_break =
          (if (st.session_count + 1) % 2 ^ 32 % st.sessions_before_long_break = 0
           then 0 else st.total_work_time_since_break + st.work_duration) ∧
        (st'.phase = Phase.LongBreak ↔
          (st.session_count + 1) % 2 ^ 32 % st.sessions_before_long_break = 0)) ∧
    (∀ env st, st.phase ≠ Phase.Work →
      ∃ st', next_phase env st = some st' ∧
        st'.total_work_time_since_break = st.total_work_time_since_break) ∧
    (∀ env st, env.now_mono - st.last_extended_break_check < 60 * nsPerSec →
      check_extended_break_reminder env st = st) ∧
    (∀ env st, ¬ env.now_mono - st.last_extended_break_check < 60 * nsPerSec →
      st.extended_break_reminder_hours ≤
        (st.total_work_time_since_break : ℚ) / (nsPerSec : ℚ) / 3600 →
      (check_extended_break_reminder env st).total_work_time_since_break = 0 ∧
      (check_extended_break_reminder env st).notifications =
        st.notifications ++ ["⚠️  Extended Break Recommended"]) ∧
    (∀ env st, ¬ env.now_mono - st.last_extended_break_check < 60 * nsPerSec →
      ¬ st.extended_break_reminder_hours ≤
        (st.total_work_time_since_break : ℚ) / (nsPerSec : ℚ) / 3600 →
      (check_extended_break_reminder env st).total_work_time_since_break =
        st.total_work_time_since_break ∧
      (check_extended_break_reminder env st).notifications = st.notifications) := by
  refine ⟨?_, ?_, ?_, ?_, ?_⟩
  · intro env st hp hs
    obtain ⟨st', hnext, -, -, hphase, htwsb, -, -, -, -, -⟩ :=
      next_phase_work env st hp hs
    refine ⟨st', hnext, htwsb, ?_⟩
    rw [hphase]
    constructor
    · intro h
      by_contra hc
      rw [if_neg hc] at h
      exact Phase.noConfusion h
    · intro h
      rw [if_pos h]
  · intro env st hp
    obtain ⟨st', hnext, -, -, -, htwsb, -, -, -, -, -, -⟩ :=
      next_phase_break env st hp
    exact ⟨st', hnext, htwsb⟩
  · intro env st h
    exact check_throttled env st h
  · intro env st h ht
    obtain ⟨h1, h2, -⟩ := check_fires env st h ht
    exact ⟨h1, h2⟩
  · intro env st h ht
    obtain ⟨h1, h2, -⟩ := check_below env st h ht
    exact ⟨h1, h2⟩

/-- Witness for C2: the Work-completion and throttle conjuncts applied
at the concrete default start state. -/
theorem C2_witness :
    (∃ st', next_phase env0 initApp = some st' ∧
      st'.total_work_time_since_break =
        (if (initApp.session_count + 1) % 2 ^ 32 % initApp.sessions_before_long_break = 0
         then 0
         else initApp.total_work_time_since_break + initApp.work_duration) ∧
      (st'.phase = Phase.LongBreak ↔
        (initApp.session_count + 1) % 2 ^ 32 % initApp.sessions_before_long_break = 0)) ∧
    check_extended_break_reminder env0 initApp = initApp :=
  ⟨C2_theorem.1 env0 initApp rfl (by with_unfolding_all decide),
   C2_theorem.2.2.1 env0 initApp (by with_unfolding_all decide)⟩

/-- C3 counterexample: a short-break state with exactly 1 s left.
The unpaused tick subtracts 50 ms leaving 950 ms > 0, yet
phase-completion IS invoked (the phase flips to Work): completion
fires at any positive sub-second remainder, not "exactly when
remaining reaches zero". -/
theorem C3_counterexample :
    oneSecApp.paused = false ∧
    0 < oneSecApp.time_remaining ∧
    oneSecApp.time_remaining - tickNs = 950000000 ∧
    (0 : ℕ) < 950000000 ∧
    (update_timer env0 oneSecApp).map (fun st => st.phase) = some Phase.Work := by
  refine ⟨rfl, ?_, ?_, by decide, ?_⟩ <;> with_unfolding_all decide

/-- C3 (amended): for every tick while not paused and remaining > 0,
the tick subtracts the 50 ms interval with saturation (so the
post-subtraction remainder never underflows below zero and, when no
completion fires, `remaining` is monotonically non-increasing), and
phase-completion is invoked exactly when the post-subtraction
remainder drops below one whole second (`as_secs() == 0`) — which
includes positive sub-second values, not only zero. -/
theorem C3_theorem (env : Env) (st : AppState) (hpause : st.paused = false)
    (hrem : 0 < st.time_remaining) (hs : st.sessions_before_long_break ≠ 0) :
    ∃ st', update_timer env st = some st' ∧
      (st'.phase ≠ st.phase ↔ st.time_remaining - tickNs < nsPerSec) ∧
      (nsPerSec ≤ st.time_remaining - tickNs →
        st'.time_remaining = st.time_remaining - tickNs ∧
        st'.time_remaining ≤ st.time_remaining) := by
  unfold update_timer
  dsimp only
  rw [if_pos (⟨hpause, hrem⟩ : st.paused = false ∧ 0 < st.time_remaining)]
  by_cases hw : st.phase = Phase.Work
  · rw [if_pos (⟨hw, hpause⟩ : st.phase = Phase.Work ∧ st.paused = false)]
    rw [check_time_remaining env { st with time_remaining := st.time_remaining - tickNs }]
    dsimp only
    by_cases hz : asSecs (st.time_remaining - tickNs) = 0
    · rw [if_pos hz]
      obtain ⟨d, hnext, -, -, hdphase, -, -, -, -, -, -⟩ :=
        next_phase_work env (check_extended_break_reminder env
            { st with time_remaining := st.time_remaining - tickNs })
          (by rw [check_phase]; exact hw) (by rw [check_sblb]; exact hs)
      rw [hnext]
      refine ⟨_, rfl, ?_, ?_⟩
      · constructor
        · intro _
          exact (asSecs_eq_zero _).mp hz
        · intro _
          show ¬ _ = st.phase
          dsimp only
          rw [hw, hdphase]
          split <;> simp
      · intro hge
        have := (asSecs_eq_zero (st.time_remaining - tickNs)).mp hz
        omega
    · rw [if_neg hz]
      refine ⟨_, rfl, ?_, ?_⟩
      · simp only [check_phase]
        constructor
        · intro hne
          exact absurd rfl hne
        · intro hlt
          exact absurd ((asSecs_eq_zero _).mpr hlt) hz
      · intro _
        simp only [check_time_remaining]
        exact ⟨trivial, Nat.sub_le _ _⟩
  · rw [if_neg (show ¬(st.phase = Phase.Work ∧ st.paused = false) from
      fun hand => hw hand.1)]
    dsimp only
    by_cases hz : asSecs (st.time_remaining - tickNs) = 0
    · rw [if_pos hz]
      obtain ⟨d, hnext, hdphase, -, -, -, -, -, -, -, -, -⟩ :=
        next_phase_break env { st with time_remaining := st.time_remaining - tickNs } hw
      rw [hnext]
      refine ⟨_, rfl, ?_, ?_⟩
      · constructor
        · intro _
          exact (asSecs_eq_zero _).mp hz
        · intro _
          show ¬ _ = st.phase
          dsimp only
          rw [hdphase]
          exact fun h => hw h.symm
      · intro hge
        have := (asSecs_eq_zero (st.time_remaining - tickNs)).mp hz
        omega
    · rw [if_neg hz]
      refine ⟨_, rfl, ?_, ?_⟩
      · constructor
        · intro hne
          exact (hne rfl).elim
        · intro hlt
          exact absurd ((asSecs_eq_zero _).mpr hlt) hz
      · intro _
        exact ⟨rfl, Nat.sub_le _ _⟩

/-- Witness for C3 at the default start state (25 minutes remaining,
unpaused). -/
theorem C3_witness :
    ∃ st', update_timer env0 initApp = some st' ∧
      (st'.phase ≠ initApp.phase ↔ initApp.time_remaining - tickNs < nsPerSec) ∧
      (nsPerSec ≤ initApp.time_remaining - tickNs →
        st'.time_remaining = initApp.time_remaining - tickNs ∧
        st'.time_remaining ≤ initApp.time_remaining) :=
  C3_theorem env0 initApp rfl (by with_unfolding_all decide) (by with_unfolding_all decide)

/-- C4 (code_bug): the program launched as `rtimer --sessions 0`
adopts `sessions_before_long_break = 0` unvalidated; the first Work
phase completion then evaluates `session_count % 0`, a `u32`
remainder with divisor zero, which panics — contradicting the spec's
"no operation can fail". -/
theorem C4_theorem :
    appSessions0.sessions_before_long_break = 0 ∧
    next_phase env0 appSessions0 = none := by
  exact ⟨rfl, by with_unfolding_all decide⟩

/-- C5 counterexample: a syntactically well-formed config file with
`work_duration = -5` and `sessions_before_long_break = 0` is loaded
verbatim by `load_config` — no range validation — so the program can
start with durations ≤ 0 and a session target outside [1,10]. -/
theorem C5_counterexample :
    load_config (some (some badConfig)) = badConfig ∧
    ¬ (1 ≤ badConfig.sessions_before_long_break ∧
        badConfig.sessions_before_long_break ≤ 10) ∧
    ¬ 0 < badConfig.work_duration := by
  exact ⟨rfl, by decide, by decide⟩

/-- C5 (amended): the built-in default configuration satisfies the
invariant (all durations > 0, sessions-before-long-break ∈ [1,10]),
and it is substituted whenever the config file is absent or
unparsable; but a parsable config document is adopted verbatim and a
CLI `--sessions` override is copied in unvalidated, so the invariant
is guaranteed only for the defaulted paths, not for every startup
configuration. -/
theorem C5_theorem :
    (0 < Config.default.work_duration ∧ 0 < Config.default.rest_duration ∧
      0 < Config.default.long_break_duration ∧
      1 ≤ Config.default.sessions_before_long_break ∧
      Config.default.sessions_before_long_break ≤ 10) ∧
    load_config none = Config.default ∧
    load_config (some none) = Config.default ∧
    (∀ c, load_config (some (some c)) = c) ∧
    (∀ cfg n, (apply_args ⟨none, none, none, some n, none, false, false⟩
        cfg).sessions_before_long_break = n) := by
  exact ⟨by decide, rfl, rfl, fun c => rfl, fun cfg n => rfl⟩

/-- C6 counterexample: with a configured work duration of 0.5 minutes
(30 s), the session record's `duration` field is the integer 0, not
the configured 0.5 minutes — the `u64` field truncates fractional
minutes. -/
theorem C6_counterexample :
    ((record_session_completion env0 halfMinuteApp).stats.session_history.map
      (fun r => r.duration)) = [0] ∧
    (halfMinuteApp.work_duration : ℚ) / (nsPerSec : ℚ) / 60 = 1 / 2 ∧
    ((0 : ℚ) ≠ 1 / 2) := by
  exact ⟨by with_unfolding_all decide, by with_unfolding_all decide,
    by with_unfolding_all decide⟩

/-- C6 (amended): every phase-completion appends exactly one session
record (evicting the oldest once the history would exceed 100) whose
`duration` is the configured duration of the just-finished phase
truncated to whole minutes (`as_secs() / 60`, flooring fractional
configured durations), and whose `completed` flag is true iff the
remaining time at the call is less than 5 seconds. -/
theorem C6_theorem (env : Env) (st : AppState) :
    ∃ rec : SessionRecord,
      (record_session_completion env st).stats.session_history =
        (if 100 < st.stats.session_history.length + 1 then
          (st.stats.session_history ++ [rec]).drop 1
        else st.stats.session_history ++ [rec]) ∧
      rec.timestamp = env.now_ts ∧
      rec.phase_type = phaseLabel st.phase ∧
      rec.duration = asSecs (total_duration st) / 60 ∧
      (rec.completed = true ↔ st.time_remaining < 5 * nsPerSec) := by
  refine ⟨⟨env.now_ts, phaseLabel st.phase, asSecs (total_duration st) / 60,
    decide (asSecs st.time_remaining < 5)⟩, ?_, rfl, rfl, rfl, ?_⟩
  · unfold record_session_completion
    dsimp only
    simp [List.length_append]
  · simp only [decide_eq_true_eq]
    exact asSecs_lt_five st.time_remaining

/-- Feeding number characters into the parse loop just accumulates
them into the pending buffer. -/
theorem parseLoop_numchars (ns : List Char) (l cur : List Char) (total : ℚ)
    (h : ∀ c ∈ ns, isNumChar c = true) :
    parseLoop (ns ++ l) cur total = parseLoop l (cur ++ ns) total := by
  induction ns generalizing cur with
  | nil => simp
  | cons c cs ih =>
      have hc : isNumChar c = true := h c (by simp)
      simp only [List.cons_append, parseLoop, hc, if_true, List.append_eq]
      rw [ih _ (fun x hx => h x (by simp [hx]))]
      simp [List.append_assoc]

/-- A valid pending number parses to its value. -/
theorem parseDigitsDot_valid (l : List Char) (h : validNum l) :
    parseDigitsDot l = some (numValue l) := by
  have h' := h
  unfold validNum at h'
  unfold parseDigitsDot numValue
  rw [if_pos h']

/-- An invalid pending buffer fails the number parse. -/
theorem parseDigitsDot_invalid (l : List Char) (h : ¬ validNum l) :
    parseDigitsDot l = none := by
  have h' := h
  unfold validNum at h'
  unfold parseDigitsDot
  rw [if_neg h']

/-- A unit character flushes a valid pending number, adding its
converted value to the running total. -/
theorem parseLoop_unit (u : Char) (hu : u = 'h' ∨ u = 'm' ∨ u = 's')
    (cur l : List Char) (total : ℚ) (h : validNum cur) :
    parseLoop (u :: l) cur total =
      parseLoop l [] (total + segValue ⟨cur, u⟩) := by
  rcases hu with rfl | rfl | rfl <;>
    simp [parseLoop, isNumChar, parseDigitsDot_valid _ h, segValue,
      div_eq_mul_inv]

/-- Running the loop over rendered valid segments accumulates their
total value in minutes. -/
theorem parseLoop_segs (segs : List DurSegment) (l : List Char) (total : ℚ)
    (h : ∀ seg ∈ segs, validSeg seg) :
    parseLoop (renderSegs segs ++ l) [] total =
      parseLoop l [] (total + segsValue segs) := by
  induction segs generalizing total with
  | nil => simp [renderSegs, segsValue]
  | cons seg rest ih =>
      obtain ⟨hnum, hunit⟩ := h seg (by simp)
      have hrest : ∀ s ∈ rest, validSeg s := fun s hs => h s (by simp [hs])
      have hchars : ∀ c ∈ seg.num, isNumChar c = true := by
        intro c hc
        exact List.all_eq_true.mp hnum.1 c hc
      show parseLoop ((seg.num ++ [seg.unit] ++ renderSegs rest) ++ l) [] total = _
      rw [List.append_assoc, List.append_assoc,
        parseLoop_numchars seg.num _ [] total hchars]
      show parseLoop (seg.unit :: (renderSegs rest ++ l)) seg.num total = _
      rw [parseLoop_unit seg.unit hunit seg.num _ total hnum, ih _ hrest]
      show _ = parseLoop l [] (total + (segValue seg + segsValue rest))
      rw [add_assoc]

/-- C7: the duration parser.  Part 1 ties the string-level function to
the character-level loop (after the trim + lowercase preprocessing).
Part 2: every string made of valid `<number><unit>` segments parses to
the sum of the segments converted to minutes (h×60, m×1, s÷60),
erroring exactly when the total is not positive.  Part 3: a unit
character whose pending buffer is not a valid number fails with that
unit's error. -/
theorem C7_theorem :
    (∀ s : String, parse_duration_arg s =
        parseDurationChars ((s.trim.data).map Char.toLower)) ∧
    (∀ segs : List DurSegment, (∀ seg ∈ segs, validSeg seg) →
      parseDurationChars (renderSegs segs) =
        (if 0 < segsValue segs then Except.ok (segsValue segs)
         else Except.error
           "Invalid duration format. Use: 25m, 1h30m, 90m, 1.5h, 0.5m")) ∧
    (∀ (segs : List DurSegment) (bad : DurSegment) (l : List Char),
      (∀ seg ∈ segs, validSeg seg) →
      (bad.unit = 'h' ∨ bad.unit = 'm' ∨ bad.unit = 's') →
      bad.num.all isNumChar = true → ¬ validNum bad.num →
      parseDurationChars (renderSegs segs ++ (bad.num ++ [bad.unit] ++ l)) =
        Except.error (unitErr bad.unit)) := by
  refine ⟨fun s => rfl, ?_, ?_⟩
  · intro segs h
    unfold parseDurationChars
    rw [show renderSegs segs = renderSegs segs ++ [] by simp,
      parseLoop_segs segs [] 0 h]
    simp [parseLoop]
  · intro segs bad l hsegs hunit hchars hbad
    unfold parseDurationChars
    rw [parseLoop_segs segs _ 0 hsegs, List.append_assoc,
      parseLoop_numchars bad.num _ [] _
        (fun c hc => List.all_eq_true.mp hchars c hc)]
    show parseLoop (bad.unit :: l) bad.num _ = _
    rcases hunit with hu | hu | hu <;>
      rw [hu] <;>
      simp [parseLoop, isNumChar, parseDigitsDot_invalid _ hbad, unitErr]

/-- Witness for C7: `"1h30m"` parses to 90 minutes; `"5mm"` (second
`m` with an empty pending buffer) fails with the minute error. -/
theorem C7_witness :
    parse_duration_arg "1h30m" = Except.ok 90 ∧
    parse_duration_arg "5mm" = Except.error "Invalid minute format" := by
  constructor
  · have h2 := C7_theorem.2.1 [⟨['1'], 'h'⟩, ⟨['3', '0'], 'm'⟩] (by decide)
    have hr : parse_duration_arg "1h30m" =
        parseDurationChars (renderSegs [⟨['1'], 'h'⟩, ⟨['3', '0'], 'm'⟩]) := by
      with_unfolding_all rfl
    have hv : segsValue [(⟨['1'], 'h'⟩ : DurSegment), ⟨['3', '0'], 'm'⟩] = 90 := by
      with_unfolding_all decide
    rw [hr, h2, hv, if_pos (by norm_num : (0 : ℚ) < 90)]
  · have h3 := C7_theorem.2.2 [⟨['5'], 'm'⟩] ⟨[], 'm'⟩ []
      (by decide) (by decide) (by decide) (by decide)
    have hr : parse_duration_arg "5mm" =
        parseDurationChars (renderSegs [⟨['5'], 'm'⟩] ++ ([] ++ ['m'] ++ [])) := by
      with_unfolding_all rfl
    rw [hr, h3]
    rfl

/-- C8: committing the settings edit buffer.  In every case editing
mode is left and the buffer is discarded (first two conjuncts).  For
each numeric field: a parsed value inside the field's range is applied
and the new configuration is persisted (one config write appended);
out-of-range or unparsable input leaves the state exactly
`settings_cancel_editing st` — prior value kept, nothing persisted, no
error surfaced. -/
theorem C8_theorem (st : AppState) :
    ((settings_apply_change st).settings_editing = false) ∧
    ((settings_apply_change st).settings_input = "") ∧
    (st.settings_selected_field = SettingsField.WorkDuration →
      (∀ v, parse_f64 st.settings_input = some v → 0 < v → v ≤ 240 →
        settings_apply_change st =
          settings_cancel_editing
            (app_save_config { st with work_duration := fromSecsQ (v * 60) })) ∧
      ((∀ v, parse_f64 st.settings_input = some v → ¬(0 < v ∧ v ≤ 240)) →
        settings_apply_change st = settings_cancel_editing st)) ∧
    (st.settings_selected_field = SettingsField.RestDuration →
      (∀ v, parse_f64 st.settings_input = some v → 0 < v → v ≤ 60 →
        settings_apply_change st =
          settings_cancel_editing
            (app_save_config { st with rest_duration := fromSecsQ (v * 60) })) ∧
      ((∀ v, parse_f64 st.settings_input = some v → ¬(0 < v ∧ v ≤ 60)) →
        settings_apply_change st = settings_cancel_editing st)) ∧
    (st.settings_selected_field = SettingsField.LongBreakDuration →
      (∀ v, parse_f64 st.settings_input = some v → 0 < v → v ≤ 120 →
        settings_apply_change st =
          settings_cancel_editing
            (app_save_config { st with long_break_duration := fromSecsQ (v * 60) })) ∧
      ((∀ v, parse_f64 st.settings_input = some v → ¬(0 < v ∧ v ≤ 120)) →
        settings_apply_change st = settings_cancel_editing st)) ∧
    (st.settings_selected_field = SettingsField.SessionsBeforeLongBreak →
      (∀ n, parse_u32 st.settings_input = some n → 0 < n → n ≤ 10 →
        settings_apply_change st =
          settings_cancel_editing
            (app_save_config { st with sessions_before_long_break := n })) ∧
      ((∀ n, parse_u32 st.settings_input = some n → ¬(0 < n ∧ n ≤ 10)) →
        settings_apply_change st = settings_cancel_editing st)) ∧
    (st.settings_selected_field = SettingsField.ExtendedBreakReminder →
      (∀ v, parse_f64 st.settings_input = some v → 1 / 2 ≤ v → v ≤ 8 →
        settings_apply_change st =
          settings_cancel_editing
            (app_save_config { st with extended_break_reminder_hours := v })) ∧
      ((∀ v, parse_f64 st.settings_input = some v → ¬(1 / 2 ≤ v ∧ v ≤ 8)) →
        settings_apply_change st = settings_cancel_editing st)) := by
  refine ⟨?_, ?_, ?_, ?_, ?_, ?_, ?_⟩
  · unfold settings_apply_change settings_cancel_editing
    rfl
  · unfold settings_apply_change settings_cancel_editing
    rfl
  · intro hf
    constructor
    · intro v hv h1 h2
      unfold settings_apply_change
      simp only [hf, hv]
      rw [if_pos ⟨h1, h2⟩]
    · intro hrej
      unfold settings_apply_change
      simp only [hf]
      cases hpv : parse_f64 st.settings_input with
      | none => simp only [hpv]
      | some v =>
          simp only [hpv]
          rw [if_neg (hrej v hpv)]
  · intro hf
    constructor
    · intro v hv h1 h2
      unfold settings_apply_change
      simp only [hf, hv]
      rw [if_pos ⟨h1, h2⟩]
    · intro hrej
      unfold settings_apply_change
      simp only [hf]
      cases hpv : parse_f64 st.settings_input with
      | none => simp only [hpv]
      | some v =>
          simp only [hpv]
          rw [if_neg (hrej v hpv)]
  · intro hf
    constructor
    · intro v hv h1 h2
      unfold settings_apply_change
      simp only [hf, hv]
      rw [if_pos ⟨h1, h2⟩]
    · intro hrej
      unfold settings_apply_change
      simp only [hf]
      cases hpv : parse_f64 st.settings_input with
      | none => simp only [hpv]
      | some v =>
          simp only [hpv]
          rw [if_neg (hrej v hpv)]
  · intro hf
    constructor
    · intro n hv h1 h2
      unfold settings_apply_change
      simp only [hf, hv]
      rw [if_pos ⟨h1, h2⟩]
    · intro hrej
      unfold settings_apply_change
      simp only [hf]
      cases hpv : parse_u32 st.settings_input with
      | none => simp only [hpv]
      | some n =>
          simp only [hpv]
          rw [if_neg (hrej n hpv)]
  · intro hf
    constructor
    · intro v hv h1 h2
      unfold settings_apply_change
      simp only [hf, hv]
      rw [if_pos ⟨h1, h2⟩]
    · intro hrej
      unfold settings_apply_change
      simp only [hf]
      cases hpv : parse_f64 st.settings_input with
      | none => simp only [hpv]
      | some v =>
          simp only [hpv]
          rw [if_neg (hrej v hpv)]

/-- Witness for C8: submitting `"999"` for the work duration (outside
(0,240]) leaves the state exactly cancel-only — prior value kept,
nothing persisted, editing mode left, buffer discarded. -/
theorem C8_witness :
    settings_apply_change editApp = settings_cancel_editing editApp := by
  apply ((C8_theorem editApp).2.2.1 rfl).2
  intro v hv
  have hp : parse_f64 "999" = some 999 := by with_unfolding_all decide
  have hv999 : v = 999 := by
    rw [show editApp.settings_input = "999" from rfl, hp] at hv
    exact (Option.some.inj hv).symm
  subst hv999
  intro hc
  exact absurd hc.2 (by norm_num)

/-- C9 counterexample: in a minimized state, the key `q` is NOT
blocked — it triggers the quit action (the quit keys are matched
before the minimized guard), contradicting "blocks all input except
the un-minimize action (including quit)". -/
theorem C9_counterexample :
    minApp.minimized = true ∧
    handle_key_event env0 ⟨KeyCode.Char 'q', false⟩ minApp = some (minApp, true) := by
  exact ⟨rfl, by with_unfolding_all rfl⟩

/-- C9 (amended): while minimized — reachable only with the notes
editor in Viewing mode, settings not in editing mode, and the view on
neither Notes nor Settings, because those sub-machines take priority
over the minimized guard — every key event other than the minimize
toggle (m/M) and the quit keys (q, Esc, Ctrl-C) leaves the
application state unchanged and triggers no action; the quit keys
still quit. -/
theorem C9_theorem (env : Env) (key : KeyEvent) (st : AppState)
    (hmin : st.minimized = true) (hmode : st.notes_mode = NotesMode.Viewing)
    (hview1 : st.current_view ≠ View.Notes) (hview2 : st.current_view ≠ View.Settings)
    (hedit : st.settings_editing = false)
    (hq : key.code ≠ KeyCode.Char 'q') (hesc : key.code ≠ KeyCode.Esc)
    (hm : key.code ≠ KeyCode.Char 'm') (hM : key.code ≠ KeyCode.Char 'M')
    (hc : ¬(key.code = KeyCode.Char 'c' ∧ key.ctrl = true)) :
    handle_key_event env key st = some (st, false) := by
  unfold handle_key_event
  rw [if_neg (show ¬(st.notes_mode = NotesMode.Adding ∨
      st.notes_mode = NotesMode.Editing) by simp [hmode]),
    if_neg (show ¬st.notes_mode = NotesMode.ConfirmingDelete by simp [hmode]),
    if_neg hview1,
    if_neg (show ¬st.settings_editing = true by simp [hedit]),
    if_neg hview2,
    if_neg (show ¬(key.code = KeyCode.Char 'q' ∨ key.code = KeyCode.Esc) from
      fun hor => hor.elim hq hesc),
    if_neg hc,
    if_neg (show ¬(key.code = KeyCode.Char 'm' ∨ key.code = KeyCode.Char 'M') from
      fun hor => hor.elim hm hM),
    if_pos hmin]

/-- Witness for C9: a minimized default state ignores the key `x`
without any state change. -/
theorem C9_witness :
    handle_key_event env0 ⟨KeyCode.Char 'x', false⟩ minApp = some (minApp, false) :=
  C9_theorem env0 ⟨KeyCode.Char 'x', false⟩ minApp rfl rfl
    (by decide) (by decide) rfl (by decide) (by decide) (by decide) (by decide)
    (by decide)

theorem inv_of_mode_viewing {st' : AppState}
    (h : st'.notes_mode = NotesMode.Viewing) : notesInvariant st' :=
  fun hm => absurd h hm

theorem start_edit_note_view (st : AppState) :
    (start_edit_note st).current_view = st.current_view := by
  unfold start_edit_note
  split
  · split <;> rfl
  · rfl

theorem confirm_delete_note_view (st : AppState) :
    (confirm_delete_note st).current_view = st.current_view := by
  unfold confirm_delete_note
  split <;> rfl

theorem select_next_note_view (st : AppState) :
    (select_next_note st).current_view = st.current_view := by
  unfold select_next_note
  split <;> rfl

theorem select_prev_note_view (st : AppState) :
    (select_prev_note st).current_view = st.current_view := by
  unfold select_prev_note
  split <;> rfl

theorem scroll_notes_view (delta : ℤ) (st : AppState) :
    (scroll_notes delta st).current_view = st.current_view := by
  unfold scroll_notes
  dsimp only
  split <;> rfl

theorem settings_apply_change_mode (st : AppState) :
    (settings_apply_change st).notes_mode = st.notes_mode := by
  unfold settings_apply_change settings_cancel_editing app_save_config
  dsimp only
  split <;> first
    | rfl
    | (split <;> first
        | rfl
        | (split <;> rfl))

theorem settings_start_editing_mode (st : AppState) :
    (settings_start_editing st).notes_mode = st.notes_mode := by
  unfold settings_start_editing
  split <;> rfl

theorem settings_toggle_boolean_mode (st : AppState) :
    (settings_toggle_boolean st).notes_mode = st.notes_mode := by
  unfold settings_toggle_boolean app_save_config
  split <;> rfl

theorem settings_cycle_theme_mode (forward : Bool) (st : AppState) :
    (settings_cycle_theme forward st).notes_mode = st.notes_mode := by
  unfold settings_cycle_theme app_save_config
  split <;> rfl

theorem next_phase_some_mode (env : Env) (st st1 : AppState)
    (h : next_phase env st = some st1) : st1.notes_mode = st.notes_mode := by
  by_cases hp : st.phase = Phase.Work
  · by_cases hs : st.sessions_before_long_break = 0
    · exfalso
      unfold next_phase at h
      dsimp only at h
      have e1 : (record_session_completion env st).phase = Phase.Work := by
        rw [record_phase]
        exact hp
      rw [if_pos e1] at h
      have e2 : (record_session_completion env st).sessions_before_long_break = 0 := by
        rw [record_sblb]
        exact hs
      rw [if_pos e2] at h
      exact Option.noConfusion h
    · obtain ⟨st2, h2, -, -, -, -, -, -, -, hmode, -⟩ :=
        next_phase_work env st hp hs
      rw [h2] at h
      obtain rfl := Option.some.inj h
      exact hmode
  · obtain ⟨st2, h2, -, -, -, -, -, -, -, hmode, -, -⟩ :=
      next_phase_break env st hp
    rw [h2] at h
    obtain rfl := Option.some.inj h
    exact hmode

set_option maxHeartbeats 1600000 in
/-- C10: every key-event dispatch step preserves the invariant
"notes mode ≠ Viewing → active view = Notes", so notes text entry and
delete confirmation can never capture input while another view is
displayed. -/
theorem C10_theorem (env : Env) (key : KeyEvent) (st st' : AppState) (q : Bool)
    (hinv : notesInvariant st) (h : handle_key_event env key st = some (st', q)) :
    notesInvariant st' := by
  unfold handle_key_event at h
  by_cases h1 : st.notes_mode = NotesMode.Adding ∨ st.notes_mode = NotesMode.Editing
  · rw [if_pos h1] at h
    have hview : st.current_view = View.Notes := by
      apply hinv
      rcases h1 with h1 | h1 <;> simp [h1]
    split at h <;>
      (try split at h) <;>
      (rw [Option.some.injEq, Prod.mk.injEq] at h; obtain ⟨rfl, -⟩ := h) <;>
      first
        | exact inv_of_mode_viewing rfl
        | exact fun _ => hview
  · rw [if_neg h1] at h
    by_cases h2 : st.notes_mode = NotesMode.ConfirmingDelete
    · rw [if_pos h2] at h
      split at h <;>
        (rw [Option.some.injEq, Prod.mk.injEq] at h; obtain ⟨rfl, -⟩ := h) <;>
        first
          | exact inv_of_mode_viewing rfl
          | exact hinv
    · rw [if_neg h2] at h
      have hmodeV : st.notes_mode = NotesMode.Viewing := by
        cases hm : st.notes_mode
        · rfl
        · exact absurd (Or.inl hm) h1
        · exact absurd (Or.inr hm) h1
        · exact absurd hm h2
      by_cases h3 : st.current_view = View.Notes
      · rw [if_pos h3] at h
        split at h <;>
          (rw [Option.some.injEq, Prod.mk.injEq] at h; obtain ⟨rfl, -⟩ := h) <;>
          first
            | exact inv_of_mode_viewing rfl
            | exact fun _ => h3
            | exact fun _ => (start_edit_note_view st).trans h3
            | exact fun _ => (confirm_delete_note_view st).trans h3
            | exact fun _ => (select_next_note_view st).trans h3
            | exact fun _ => (select_prev_note_view st).trans h3
            | exact fun _ => (scroll_notes_view _ st).trans h3
      · rw [if_neg h3] at h
        by_cases h4 : st.settings_editing = true
        · rw [if_pos h4] at h
          split at h <;>
            (rw [Option.some.injEq, Prod.mk.injEq] at h; obtain ⟨rfl, -⟩ := h)
          · exact inv_of_mode_viewing hmodeV
          · exact inv_of_mode_viewing hmodeV
          · exact inv_of_mode_viewing ((settings_apply_change_mode st).trans hmodeV)
          · exact inv_of_mode_viewing hmodeV
          · exact inv_of_mode_viewing hmodeV
        · rw [if_neg h4] at h
          by_cases h5 : st.current_view = View.Settings
          · rw [if_pos h5] at h
            split at h <;>
              (rw [Option.some.injEq, Prod.mk.injEq] at h; obtain ⟨rfl, -⟩ := h) <;>
              first
                | exact inv_of_mode_viewing hmodeV
                | exact inv_of_mode_viewing ((settings_start_editing_mode st).trans hmodeV)
                | exact inv_of_mode_viewing ((settings_toggle_boolean_mode st).trans hmodeV)
                | exact inv_of_mode_viewing (by
                    split
                    · exact (settings_cycle_theme_mode _ st).trans hmodeV
                    · exact hmodeV)
          · rw [if_neg h5] at h
            by_cases h6 : key.code = KeyCode.Char 'q' ∨ key.code = KeyCode.Esc
            · rw [if_pos h6] at h
              rw [Option.some.injEq, Prod.mk.injEq] at h
              obtain ⟨rfl, -⟩ := h
              exact hinv
            · rw [if_neg h6] at h
              by_cases h7 : key.code = KeyCode.Char 'c' ∧ key.ctrl = true
              · rw [if_pos h7] at h
                rw [Option.some.injEq, Prod.mk.injEq] at h
                obtain ⟨rfl, -⟩ := h
                exact hinv
              · rw [if_neg h7] at h
                by_cases h8 : key.code = KeyCode.Char 'm' ∨ key.code = KeyCode.Char 'M'
                · rw [if_pos h8] at h
                  rw [Option.some.injEq, Prod.mk.injEq] at h
                  obtain ⟨rfl, -⟩ := h
                  exact hinv
                · rw [if_neg h8] at h
                  by_cases h9 : st.minimized = true
                  · rw [if_pos h9] at h
                    rw [Option.some.injEq, Prod.mk.injEq] at h
                    obtain ⟨rfl, -⟩ := h
                    exact hinv
                  · rw [if_neg h9] at h
                    split at h
                    all_goals try (rw [Option.some.injEq, Prod.mk.injEq] at h; obtain ⟨rfl, -⟩ := h)
                    all_goals try first
                      | exact inv_of_mode_viewing rfl
                      | exact inv_of_mode_viewing hmodeV
                      | exact hinv
                    cases hnp : next_phase env st with
                    | none =>
                        rw [hnp] at h
                        dsimp only at h
                        exact Option.noConfusion h
                    | some st1 =>
                        rw [hnp] at h
                        dsimp only at h
                        rw [Option.some.injEq, Prod.mk.injEq] at h
                        obtain ⟨rfl, -⟩ := h
                        exact inv_of_mode_viewing
                          ((next_phase_some_mode env st st1 hnp).trans hmodeV)

/-- Witness for C10: dispatching the `t` key (open notes) from the
default start state preserves the invariant. -/
theorem C10_witness : notesInvariant (open_notes initApp) :=
  C10_theorem env0 ⟨KeyCode.Char 't', false⟩ initApp (open_notes initApp) false
    (fun hm => absurd rfl hm) (by with_unfolding_all rfl)

end RTimer
